import Mathlib

/-!
Verification development for the `manifest_merger` tool of the
Flamingo-OS vendor_flamingo repository (scripts/manifest_merger/src).

The Rust sources are embedded shallowly:

* `get_repos`, `merge_upstream` (job construction) and `merge_in_repo`
  (the per-repository merge worker) from `merge.rs`;
* `get_or_create_remote` and `add_and_commit` from `git.rs`.

External git operations (opening a repository, fetching, merging,
pushing) are modelled by an oracle environment `ExtEnv` that fixes, per
repository, the success or failure of each external call, together with
an abstract repository state `RepoState` (registered remotes, whether a
merge is in progress, the current HEAD commit).  The worker is a pure
function of the oracle, the state and the job, returning the list of
console events it emits, whether it panicked (an `unwrap`/`expect` on a
failed call), and the resulting repository state.  Rust `HashMap`s
(built by `collect()`) are modelled by association lists deduplicated
with last-insert-wins semantics (`hmFromList`).
-/

namespace ManifestMerger

/-- Constant `FLAMINGO_REMOTE` from `merge.rs`. -/
def FLAMINGO_REMOTE : String := "flamingo"

/-- Constant `FLAMINGO_BRANCH` from `merge.rs`. -/
def FLAMINGO_BRANCH : String := "A13"

/-- An XML child node of the `<manifest>` element, carrying exactly the
data `get_repos` inspects: for an element, its tag name and its
attribute map; anything else (text, comments, CData) is a non-element
node, which `get_repos` skips via `as_element()`. -/
inductive XMLNode where
  | element (name : String) (attributes : List (String × String)) : XMLNode
  | text (s : String) : XMLNode
  deriving DecidableEq

/-- The parsed `<manifest>` element: `xmltree::Element` restricted to the
`children` field, the only field `get_repos` reads. -/
structure Element where
  children : List XMLNode
  deriving DecidableEq

/-- A manifest handle as `merge_upstream` consumes it: the remote name,
remote base URL and revision it reports, plus the result of reading and
parsing its XML file (`read_manifest`), which is an external I/O action
and is therefore carried as data. -/
structure ManifestM where
  remote_name : String
  remote_url : String
  revision : String
  readResult : Except String Element

instance : Inhabited ManifestM := ⟨⟨"", "", "", Except.ok ⟨[]⟩⟩⟩

/-- `attributes.contains_key(k)` on an element's attribute map. -/
def attrsContains (attrs : List (String × String)) (k : String) : Bool :=
  (attrs.lookup k).isSome

/-- `attributes.get(k).unwrap().to_string()`; `get_repos` only calls it
under a `contains_key` guard, so the default is never produced there. -/
def attrsGet (attrs : List (String × String)) (k : String) : String :=
  (attrs.lookup k).getD ""

/-- `node.as_element()`. -/
def nodeAsElement : XMLNode → Option (String × List (String × String))
  | .element n attrs => some (n, attrs)
  | .text _ => none

/-- The iterator chain of `get_repos` (merge.rs:44-60): map `as_element`,
keep the `Some`s, keep elements having both a `path` and a `name`
attribute, and project each to the `(path, name)` pair. -/
def collectRepos (children : List XMLNode) : List (String × String) :=
  ((children.filterMap nodeAsElement).filter
      (fun el => attrsContains el.2 "path" && attrsContains el.2 "name")).map
    (fun el => (attrsGet el.2 "path", attrsGet el.2 "name"))

/-- One `HashMap::insert`: any earlier binding of the key is dropped and
the new pair appended. -/
def hmInsert (m : List (String × String)) (kv : String × String) :
    List (String × String) :=
  m.filter (fun p => !(p.1 == kv.1)) ++ [kv]

/-- `collect::<HashMap<_, _>>()` on a pair iterator: inserts in order,
later pairs overwriting earlier ones with the same key. -/
def hmFromList (l : List (String × String)) : List (String × String) :=
  l.foldl hmInsert []

/-- `HashMap::get`. -/
def hmGet (m : List (String × String)) (k : String) : Option String :=
  m.lookup k

/-- `HashMap::contains_key`. -/
def hmContains (m : List (String × String)) (k : String) : Bool :=
  (hmGet m k).isSome

/-- `get_repos` (merge.rs:43-62): parse the manifest file and collect the
`(path, name)` pairs of its qualifying children into a `HashMap`. -/
def get_repos (m : ManifestM) : Except String (List (String × String)) :=
  m.readResult.map (fun e => hmFromList (collectRepos e.children))

/-- `MergeData` (merge.rs:34-41): one immutable unit of merge work. -/
structure MergeData where
  remote_name : String
  remote_url : String
  repo_path : String
  repo_name : String
  revision : String
  push : Bool
  deriving DecidableEq, Inhabited

/-- `system_manifest.as_ref().map_or(HashMap::new(), |m| get_repos(m).unwrap())`:
an absent manifest contributes the empty map; a present one contributes
its parsed map, and a parse failure is an `unwrap` panic (surfaced by
`mergeJobs` returning `none`). -/
def reposOf : Option ManifestM → Except String (List (String × String))
  | none => Except.ok []
  | some m => get_repos m

/-- The body of the closure in `merge_upstream`'s `.map(...)` over the
baseline pairs (merge.rs:83-115): system mapping first, then vendor,
else no job. -/
def buildJob (source : String) (sys : Option ManifestM)
    (srepos : List (String × String)) (ven : Option ManifestM)
    (vrepos : List (String × String)) (push : Bool)
    (kv : String × String) : Option MergeData :=
  let path := kv.1
  if sys.isSome && hmContains srepos path then
    let sm := sys.get!
    some { remote_name := sm.remote_name
           remote_url := sm.remote_url ++ "/" ++ (hmGet srepos path).getD ""
           repo_path := source ++ "/" ++ path
           repo_name := path
           revision := sm.revision
           push := push }
  else if ven.isSome && hmContains vrepos path then
    let vm := ven.get!
    some { remote_name := vm.remote_name
           remote_url := vm.remote_url ++ "/" ++ (hmGet vrepos path).getD ""
           repo_path := source ++ "/" ++ path
           repo_name := path
           revision := vm.revision
           push := push }
  else none

/-- Job construction in `merge_upstream` (merge.rs:64-120): read the
three manifests (each `get_repos(...).unwrap()` is a panic on parse
failure, modelled by `none`), then build at most one job per baseline
pair.  The thread-pool dispatch is modelled separately by `runJobs`. -/
def mergeJobs (source : String) (flamingo : ManifestM)
    (sys ven : Option ManifestM) (push : Bool) : Option (List MergeData) := do
  let frepos ← (get_repos flamingo).toOption
  let srepos ← (reposOf sys).toOption
  let vrepos ← (reposOf ven).toOption
  some (frepos.filterMap (buildJob source sys srepos ven vrepos push))

/-- Abstract state of one local git repository: its configured remotes
(name, url), whether a merge is in progress (`MERGE_HEAD` present), and
an abstract identifier for the commit `HEAD` points to. -/
structure RepoState where
  remotes : List (String × String)
  merging : Bool
  headCommit : Nat
  deriving DecidableEq, Inhabited

/-- Per-job oracle fixing the outcome of each external call the worker
makes.  `some msg` in an error field means that call fails with that
message; `mergeConflicts` / `mergeChanges` describe the index and
working tree left by a successful `repo.merge` — the worker never reads
them, which is itself a fact about the code. -/
structure ExtEnv where
  openErr : Option String
  createErr : Option String
  fetchErr : Option String
  refFound : Bool
  annotatedOk : Bool
  mergeErr : Option String
  mergeConflicts : Bool
  mergeChanges : Bool
  pushErr : Option String
  deriving DecidableEq, Inhabited

/-- A git remote handle: its registered name and URL. -/
structure RemoteT where
  name : String
  url : String
  deriving DecidableEq, Inhabited

/-- Failure modes of `Repository::remote` relevant to the code: the
name already exists (`ErrorCode::Exists`), or anything else. -/
inductive CreateErr where
  | exists_
  | other (msg : String)
  deriving DecidableEq

/-- `repo.remote(name, url)`: fails with `Exists` when a remote of that
name is registered; otherwise fails if the oracle says creation fails;
otherwise registers the remote and returns its handle. -/
def repoRemote (createErr : Option String) (st : RepoState)
    (name url : String) : Except CreateErr (RemoteT × RepoState) :=
  if (st.remotes.lookup name).isSome then Except.error CreateErr.exists_
  else
    match createErr with
    | some m => Except.error (CreateErr.other m)
    | none => Except.ok (⟨name, url⟩, { st with remotes := st.remotes ++ [(name, url)] })

/-- `repo.find_remote(name)`. -/
def findRemote (st : RepoState) (name : String) : Option RemoteT :=
  (st.remotes.lookup name).map (fun u => ⟨name, u⟩)

/-- Console events.  `logError m` is a line printed through `error(..)`
(which prefixes `Error: ` and colours it red); the carried string is the
formatted message. -/
inductive WEvent where
  | logMerging (repo : String)
  | logError (msg : String)
  | logPushed (repo : String)
  deriving DecidableEq

/-- Result of one worker execution: the console events it emitted, in
order; whether it panicked (an `unwrap()`/`expect()` on a failed call
unwinds the thread instead of returning); the repository state it left
behind; whether the push operation was invoked; and, when the push
succeeded, the commit id that was pushed (`HEAD` at push time). -/
structure WorkerResult where
  events : List WEvent
  panicked : Bool
  state : RepoState
  pushTried : Bool
  pushedCommit : Option Nat
  deriving DecidableEq

/-- The tail of `merge_in_repo` from the fetch onwards
(merge.rs:140-166), after the remote has been ensured and the state is
`st1`: fetch, `find_reference(revision).unwrap()`,
`reference_to_annotated_commit(..).unwrap()`, `repo.merge`, then — with
no conflict inspection, no commit and no cleanup — push when requested.
The push (merge.rs:188-202) looks up the fixed `flamingo` remote with
`expect` (a panic when absent) and pushes `HEAD:refs/heads/A13`. -/
def fetchOnward (env : ExtEnv) (st1 : RepoState) (d : MergeData)
    (ev0 : List WEvent) : WorkerResult :=
  match env.fetchErr with
  | some m =>
    ⟨ev0 ++ [WEvent.logError ("failed to fetch revision " ++ d.revision ++ " from "
        ++ d.remote_url ++ " : " ++ m)], false, st1, false, none⟩
  | none =>
    if !env.refFound then ⟨ev0, true, st1, false, none⟩
    else if !env.annotatedOk then ⟨ev0, true, st1, false, none⟩
    else
      match env.mergeErr with
      | some m =>
        ⟨ev0 ++ [WEvent.logError ("failed to merge revision " ++ d.revision ++ " from "
            ++ d.remote_url ++ " in " ++ d.repo_name ++ " : " ++ m)], false, st1, false, none⟩
      | none =>
        let st2 := { st1 with merging := true }
        if !d.push then ⟨ev0, false, st2, false, none⟩
        else if (findRemote st2 FLAMINGO_REMOTE).isNone then ⟨ev0, true, st2, false, none⟩
        else
          match env.pushErr with
          | some m =>
            ⟨ev0 ++ [WEvent.logError ("failed to push " ++ d.repo_name ++ " : " ++ m)],
              false, st2, true, none⟩
          | none =>
            ⟨ev0 ++ [WEvent.logPushed d.repo_name], false, st2, true, some st2.headCommit⟩

/-- `merge_in_repo` (merge.rs:122-175): print the start line, open the
repository, ensure the remote (inline `repo.remote` with the
`ErrorCode::Exists` special case and `find_remote(..).unwrap()`), then
continue with `fetchOnward`. -/
def merge_in_repo (env : ExtEnv) (st : RepoState) (d : MergeData) : WorkerResult :=
  let ev0 := [WEvent.logMerging d.repo_name]
  match env.openErr with
  | some m =>
    ⟨ev0 ++ [WEvent.logError ("failed to open git repository at " ++ d.repo_path
        ++ ": " ++ m)], false, st, false, none⟩
  | none =>
    match repoRemote env.createErr st d.remote_name d.remote_url with
    | Except.error (CreateErr.other m) =>
      ⟨ev0 ++ [WEvent.logError ("failed to create remote " ++ d.remote_name ++ ": " ++ m)],
        false, st, false, none⟩
    | Except.error CreateErr.exists_ => fetchOnward env st d ev0
    | Except.ok (_, st') => fetchOnward env st' d ev0

/-- `add_and_commit` (git.rs:59-81), the only commit-creating routine in
the tool: stage everything, write the tree, and commit on `HEAD` with
the repository's default signature as both author and committer and the
previous `HEAD` as single parent.  It is called by the manifest-update
code only; `merge_in_repo` never invokes it. -/
def add_and_commit (st : RepoState) (message : String) :
    RepoState × (Nat × String) :=
  ({ st with headCommit := st.headCommit + 1 }, (st.headCommit + 1, message))

/-- The repository state after the ensure-remote step of `merge_in_repo`
succeeds: unchanged when the remote name was already registered
(`ErrorCode::Exists` path), otherwise with the new remote appended. -/
def ensuredState (st : RepoState) (d : MergeData) : RepoState :=
  if (st.remotes.lookup d.remote_name).isSome then st
  else { st with remotes := st.remotes ++ [(d.remote_name, d.remote_url)] }

/-- The world the batch runs in: for every repository path, the state of
the checkout at that path and the oracle for external calls made from
it.  Distinct jobs target distinct paths, so a worker mutates only its
own slot. -/
structure World where
  states : String → RepoState
  envs : String → ExtEnv

/-- Sequential execution of a dispatch order of jobs, threading the
world: each job runs `merge_in_repo` against its own repository's state
and oracle and writes back only that repository's state.  A thread pool
of any size executes the batch in some such order (jobs are isolated;
the only shared resource is stdout). -/
def runJobs (w : World) : List MergeData → List (String × WorkerResult)
  | [] => []
  | d :: rest =>
    let r := merge_in_repo (w.envs d.repo_path) (w.states d.repo_path) d
    let w' : World := ⟨fun p => if p = d.repo_path then r.state else w.states p, w.envs⟩
    (d.repo_name, r) :: runJobs w' rest

/-- `get_or_create_remote` (git.rs:25-40): try to create; on
`ErrorCode::Exists` return the existing remote (`find_remote(..).unwrap()`);
propagate any other failure as an error string. -/
def get_or_create_remote (createErr : Option String) (st : RepoState)
    (name url : String) : Except String (RemoteT × RepoState) :=
  match repoRemote createErr st name url with
  | Except.ok r => Except.ok r
  | Except.error CreateErr.exists_ => Except.ok ((findRemote st name).get!, st)
  | Except.error (CreateErr.other m) =>
    Except.error ("failed to create remote " ++ name ++ ": " ++ m)

/-! ### Concrete fixtures used by witnesses and counterexamples -/

/-- A baseline (flamingo) manifest listing repositories `a`, `b`, `c`. -/
def flamingoFix : ManifestM :=
  { remote_name := "flamingo", remote_url := "https://github.com/Flamingo-OS",
    revision := "refs/heads/A13",
    readResult := Except.ok ⟨[
      XMLNode.element "project" [("path", "a"), ("name", "flamingo_a")],
      XMLNode.element "project" [("path", "b"), ("name", "flamingo_b")],
      XMLNode.element "project" [("path", "c"), ("name", "flamingo_c")]]⟩ }

/-- A system upstream manifest tracking path `a` only. -/
def systemFix : ManifestM :=
  { remote_name := "clo_system", remote_url := "https://sys.example",
    revision := "refs/tags/S1",
    readResult := Except.ok ⟨[
      XMLNode.element "project" [("path", "a"), ("name", "sys_a")]]⟩ }

/-- A vendor upstream manifest tracking paths `a` and `b`. -/
def vendorFix : ManifestM :=
  { remote_name := "clo_vendor", remote_url := "https://ven.example",
    revision := "refs/tags/V1",
    readResult := Except.ok ⟨[
      XMLNode.element "project" [("path", "a"), ("name", "ven_a")],
      XMLNode.element "project" [("path", "b"), ("name", "ven_b")]]⟩ }

/-- A vendor upstream manifest tracking path `b` only. -/
def vendorBFix : ManifestM :=
  { remote_name := "clo_vendor", remote_url := "https://ven.example",
    revision := "refs/tags/V1",
    readResult := Except.ok ⟨[
      XMLNode.element "project" [("path", "b"), ("name", "ven_b")]]⟩ }

/-- A present-but-malformed upstream manifest: reading or parsing its
file failed. -/
def malformedFix : ManifestM :=
  { remote_name := "clo_system", remote_url := "https://sys.example",
    revision := "refs/tags/S2",
    readResult := Except.error "Failed to parse system.xml" }

/-- A manifest whose single child is not a `project` element yet carries
both a `path` and a `name` attribute. -/
def remoteChildFix : ManifestM :=
  { remote_name := "r", remote_url := "u", revision := "rev",
    readResult := Except.ok ⟨[
      XMLNode.element "remote" [("path", "p1"), ("name", "n1")]]⟩ }

/-- The job `mergeJobs` builds for baseline path `a` against
`systemFix`. -/
def jobAFix : MergeData :=
  { remote_name := "clo_system", remote_url := "https://sys.example/sys_a",
    repo_path := "src/a", repo_name := "a", revision := "refs/tags/S1",
    push := true }

/-- The job `mergeJobs` builds for baseline path `b` against a vendor
manifest tracking `b`. -/
def jobBFix : MergeData :=
  { remote_name := "clo_vendor", remote_url := "https://ven.example/ven_b",
    repo_path := "src/b", repo_name := "b", revision := "refs/tags/V1",
    push := true }

/-- Oracle under which every external call succeeds. -/
def envAllOk : ExtEnv :=
  { openErr := none, createErr := none, fetchErr := none, refFound := true,
    annotatedOk := true, mergeErr := none, mergeConflicts := false,
    mergeChanges := true, pushErr := none }

/-- Oracle under which everything succeeds until the fetched revision
fails to resolve to a local reference. -/
def envRefMissing : ExtEnv := { envAllOk with refFound := false }

/-- Oracle whose merge call succeeds but leaves unresolved conflicts in
the index. -/
def envConflict : ExtEnv := { envAllOk with mergeConflicts := true }

/-- Oracle whose remote creation fails with a non-Exists error. -/
def envCreateFail : ExtEnv := { envAllOk with createErr := some "invalid" }

/-- Oracle whose fetch fails. -/
def envFetchFail : ExtEnv := { envAllOk with fetchErr := some "timeout" }

/-- Oracle whose merge call itself fails. -/
def envMergeFail : ExtEnv := { envAllOk with mergeErr := some "dirty" }

/-- Oracle whose push fails. -/
def envPushFail : ExtEnv := { envAllOk with pushErr := some "denied" }

/-- A repository that already has the publish remote `flamingo`
registered, is not mid-merge, and whose HEAD is commit 7. -/
def stFix : RepoState :=
  { remotes := [("flamingo", "git@github.com:Flamingo-OS/vendor_a")],
    merging := false, headCommit := 7 }

/-- A world in which every repository looks like `stFix` and every
external call succeeds. -/
def worldFix : World := ⟨fun _ => stFix, fun _ => envAllOk⟩

/-! ### Association-list map lemmas -/

theorem lookup_isSome_iff (m : List (String × String)) (k : String) :
    (m.lookup k).isSome = true ↔ k ∈ m.map Prod.fst := by
  induction m with
  | nil => simp [List.lookup]
  | cons kv rest ih =>
    obtain ⟨a, b⟩ := kv
    by_cases h : k = a
    · subst h
      simp [List.lookup]
    · have hb : (k == a) = false := by simpa using h
      simp [List.lookup, hb, h, ih]

theorem lookup_append_of_none (l l' : List (String × String)) (k : String)
    (h : l.lookup k = none) : (l ++ l').lookup k = l'.lookup k := by
  induction l with
  | nil => simp
  | cons kv rest ih =>
    obtain ⟨a, b⟩ := kv
    cases hb : (k == a) with
    | true => simp [List.lookup, hb] at h
    | false =>
      simp only [List.lookup, hb] at h ⊢
      exact ih h

theorem lookup_append_isSome (l l' : List (String × String)) (k : String)
    (h : (l.lookup k).isSome = true) :
    ((l ++ l').lookup k).isSome = true := by
  induction l with
  | nil => simp [List.lookup] at h
  | cons kv rest ih =>
    obtain ⟨a, b⟩ := kv
    cases hb : (k == a) with
    | true => simp [List.lookup, hb]
    | false =>
      simp only [List.lookup, hb] at h ⊢
      exact ih h

theorem keys_hmInsert (acc : List (String × String)) (x : String × String)
    (k : String) :
    k ∈ (hmInsert acc x).map Prod.fst ↔ k ∈ acc.map Prod.fst ∨ k = x.1 := by
  unfold hmInsert
  simp only [List.map_append, List.mem_append, List.mem_map, List.mem_filter]
  constructor
  · rintro (⟨p, ⟨hp, _⟩, rfl⟩ | h)
    · exact Or.inl ⟨p, hp, rfl⟩
    · simp at h
      exact Or.inr h.symm
  · rintro (⟨p, hp, rfl⟩ | rfl)
    · by_cases hx : p.1 = x.1
      · right
        simp [hx]
      · left
        exact ⟨p, ⟨hp, by simpa using hx⟩, rfl⟩
    · right
      simp

theorem hmInsert_keys_nodup (acc : List (String × String)) (x : String × String)
    (h : (acc.map Prod.fst).Nodup) :
    ((hmInsert acc x).map Prod.fst).Nodup := by
  unfold hmInsert
  rw [List.map_append]
  refine List.Nodup.append ?_ (by simp) ?_
  · exact ((List.filter_sublist acc).map Prod.fst).nodup h
  · intro a ha hb
    simp only [List.mem_map, List.mem_filter] at ha
    obtain ⟨p, ⟨_, hp⟩, rfl⟩ := ha
    simp only [List.map_cons, List.map_nil, List.mem_singleton] at hb
    simp [hb] at hp

theorem hmFromList_keys_nodup (l : List (String × String)) :
    ((hmFromList l).map Prod.fst).Nodup := by
  suffices h : ∀ acc : List (String × String), (acc.map Prod.fst).Nodup →
      ((l.foldl hmInsert acc).map Prod.fst).Nodup from h [] (by simp)
  induction l with
  | nil => intro acc h; simpa using h
  | cons x rest ih =>
    intro acc h
    exact ih (hmInsert acc x) (hmInsert_keys_nodup acc x h)

theorem hmFromList_mem (l : List (String × String)) (kv : String × String)
    (h : kv ∈ hmFromList l) : kv ∈ l := by
  suffices hgen : ∀ acc : List (String × String), kv ∈ l.foldl hmInsert acc →
      kv ∈ acc ∨ kv ∈ l by
    rcases hgen [] h with h' | h'
    · simp at h'
    · exact h'
  clear h
  induction l with
  | nil => intro acc h'; exact Or.inl h'
  | cons x rest ih =>
    intro acc h'
    rcases ih (hmInsert acc x) h' with h'' | h''
    · unfold hmInsert at h''
      rcases List.mem_append.mp h'' with h3 | h3
      · exact Or.inl (List.mem_of_mem_filter h3)
      · simp only [List.mem_singleton] at h3
        subst h3
        exact Or.inr (List.mem_cons_self _ _)
    · exact Or.inr (List.mem_cons_of_mem _ h'')

theorem hmFromList_keys_iff (l : List (String × String)) (k : String) :
    k ∈ (hmFromList l).map Prod.fst ↔ k ∈ l.map Prod.fst := by
  constructor
  · intro h
    obtain ⟨p, hp, rfl⟩ := List.mem_map.mp h
    exact List.mem_map.mpr ⟨p, hmFromList_mem l p hp, rfl⟩
  · intro h
    suffices hgen : ∀ acc : List (String × String),
        k ∈ acc.map Prod.fst ∨ k ∈ l.map Prod.fst →
        k ∈ (l.foldl hmInsert acc).map Prod.fst from hgen [] (Or.inr h)
    clear h
    induction l with
    | nil =>
      intro acc h
      rcases h with h | h
      · exact h
      · simp at h
    | cons x rest ih =>
      intro acc h
      apply ih (hmInsert acc x)
      rcases h with h | h
      · exact Or.inl ((keys_hmInsert acc x k).mpr (Or.inl h))
      · simp only [List.map_cons, List.mem_cons] at h
        rcases h with h | h
        · exact Or.inl ((keys_hmInsert acc x k).mpr (Or.inr h))
        · exact Or.inr h

theorem hmContains_iff (l : List (String × String)) (k : String) :
    hmContains (hmFromList l) k = true ↔ k ∈ l.map Prod.fst := by
  unfold hmContains hmGet
  rw [lookup_isSome_iff]
  exact hmFromList_keys_iff l k

/-! ### Job-construction lemmas -/

theorem buildJob_fields {source : String} {sys : Option ManifestM}
    {srepos : List (String × String)} {ven : Option ManifestM}
    {vrepos : List (String × String)} {push : Bool} {kv : String × String}
    {j : MergeData}
    (h : buildJob source sys srepos ven vrepos push kv = some j) :
    j.repo_name = kv.1 ∧ j.repo_path = source ++ "/" ++ kv.1 := by
  simp only [buildJob] at h
  split_ifs at h
  · obtain rfl := Option.some.inj h
    exact ⟨rfl, rfl⟩
  · obtain rfl := Option.some.inj h
    exact ⟨rfl, rfl⟩

theorem mem_filterMap_repo_name (f : String × String → Option MergeData)
    (hf : ∀ kv j, f kv = some j → j.repo_name = kv.1)
    (l : List (String × String)) (j : MergeData)
    (h : j ∈ l.filterMap f) : j.repo_name ∈ l.map Prod.fst := by
  obtain ⟨kv, hkv, hfkv⟩ := List.mem_filterMap.mp h
  exact List.mem_map.mpr ⟨kv, hkv, (hf kv j hfkv).symm⟩

theorem filterMap_filter_not_mem (f : String × String → Option MergeData)
    (hf : ∀ kv j, f kv = some j → j.repo_name = kv.1)
    (l : List (String × String)) (p : String)
    (hp : p ∉ l.map Prod.fst) :
    (l.filterMap f).filter (fun j => j.repo_name == p) = [] := by
  rw [List.filter_eq_nil_iff]
  intro j hj
  have hmem := mem_filterMap_repo_name f hf l j hj
  simp only [beq_iff_eq]
  intro hEq
  rw [hEq] at hmem
  exact hp hmem

theorem filterMap_filter_of_mem (f : String × String → Option MergeData)
    (hf : ∀ kv j, f kv = some j → j.repo_name = kv.1) :
    ∀ (l : List (String × String)) (p n : String),
      (l.map Prod.fst).Nodup → (p, n) ∈ l →
      (l.filterMap f).filter (fun j => j.repo_name == p) = (f (p, n)).toList := by
  intro l
  induction l with
  | nil => intro p n _ h; simp at h
  | cons x rest ih =>
    intro p n hnd hmem
    simp only [List.map_cons, List.nodup_cons] at hnd
    obtain ⟨hx, hrest⟩ := hnd
    rw [List.filterMap_cons]
    rcases List.mem_cons.mp hmem with h | h
    · subst h
      cases hfx : f (p, n) with
      | none =>
        simp only [hfx]
        exact (filterMap_filter_not_mem f hf rest p hx).trans rfl
      | some j =>
        have hname := hf (p, n) j hfx
        simp only [hfx, List.filter_cons, hname, beq_self_eq_true, if_pos]
        rw [filterMap_filter_not_mem f hf rest p hx]
        rfl
    · have hkey : p ∈ rest.map Prod.fst := List.mem_map.mpr ⟨(p, n), h, rfl⟩
      have hne : p ≠ x.1 := fun hEq => hx (hEq ▸ hkey)
      cases hfx : f x with
      | none => simpa only [hfx] using ih p n hrest h
      | some j =>
        have hname := hf x j hfx
        have hfilt : (j.repo_name == p) = false := by
          rw [hname]
          exact beq_false_of_ne (fun hEq => hne (hEq.symm))
        simp only [hfx, List.filter_cons, hfilt, Bool.false_eq_true, if_false]
        exact ih p n hrest h

theorem filterMap_names_nodup (f : String × String → Option MergeData)
    (hf : ∀ kv j, f kv = some j → j.repo_name = kv.1) :
    ∀ l : List (String × String), (l.map Prod.fst).Nodup →
      ((l.filterMap f).map (fun j => j.repo_name)).Nodup := by
  intro l
  induction l with
  | nil => intro _; simp
  | cons x rest ih =>
    intro hnd
    simp only [List.map_cons, List.nodup_cons] at hnd
    obtain ⟨hx, hrest⟩ := hnd
    rw [List.filterMap_cons]
    cases hfx : f x with
    | none => exact ih hrest
    | some j =>
      simp only [List.map_cons, List.nodup_cons]
      refine ⟨?_, ih hrest⟩
      intro hmem
      obtain ⟨j', hj', hname⟩ := List.mem_map.mp hmem
      have h1 := mem_filterMap_repo_name f hf rest j' hj'
      rw [hname, hf x j hfx] at h1
      exact hx h1

theorem str_append_left_cancel (s a b : String) (h : s ++ a = s ++ b) : a = b := by
  obtain ⟨sa⟩ := s
  obtain ⟨aa⟩ := a
  obtain ⟨ba⟩ := b
  simp only [HAppend.hAppend, Append.append, String.append] at h
  injection h with h'
  exact congrArg String.mk (List.append_cancel_left h')

/-! ### Scheduler lemmas -/

theorem runJobs_eq_map :
    ∀ (w : World) (jobs : List MergeData),
      (jobs.map (fun d => d.repo_path)).Nodup →
      runJobs w jobs = jobs.map
        (fun d => (d.repo_name,
          merge_in_repo (w.envs d.repo_path) (w.states d.repo_path) d)) := by
  intro w jobs
  induction jobs generalizing w with
  | nil => intro _; rfl
  | cons d rest ih =>
    intro hnd
    simp only [List.map_cons, List.nodup_cons] at hnd
    obtain ⟨hd, hrest⟩ := hnd
    simp only [runJobs, List.map_cons]
    congr 1
    rw [ih _ hrest]
    apply List.map_congr_left
    intro d' hd'
    have hne : d'.repo_path ≠ d.repo_path := by
      intro hEq
      apply hd
      rw [← hEq]
      exact List.mem_map.mpr ⟨d', hd', rfl⟩
    simp [hne]

/-! ### Manifest-extraction lemmas -/

theorem mem_collectRepos (children : List XMLNode) (p n : String) :
    (p, n) ∈ collectRepos children ↔
      ∃ nm attrs, XMLNode.element nm attrs ∈ children ∧
        attrsContains attrs "path" = true ∧ attrsContains attrs "name" = true ∧
        attrsGet attrs "path" = p ∧ attrsGet attrs "name" = n := by
  unfold collectRepos
  simp only [List.mem_map, List.mem_filter, List.mem_filterMap]
  constructor
  · rintro ⟨el, ⟨⟨node, hnode, hel⟩, hattrs⟩, hpair⟩
    cases node with
    | element nm attrs =>
      simp only [nodeAsElement, Option.some.injEq] at hel
      subst hel
      rw [Bool.and_eq_true] at hattrs
      rw [Prod.mk.injEq] at hpair
      obtain ⟨hp, hn⟩ := hpair
      exact ⟨nm, attrs, hnode, hattrs.1, hattrs.2, hp, hn⟩
    | text s => simp [nodeAsElement] at hel
  · rintro ⟨nm, attrs, hmem, hp, hn, hgp, hgn⟩
    exact ⟨(nm, attrs), ⟨⟨XMLNode.element nm attrs, hmem, rfl⟩,
      by simp [hp, hn]⟩, by simp [hgp, hgn]⟩

theorem collectRepos_skip (pre post : List XMLNode) (node : XMLNode)
    (h : ∀ nm attrs, node = XMLNode.element nm attrs →
        (attrsContains attrs "path" && attrsContains attrs "name") = false) :
    collectRepos (pre ++ node :: post) = collectRepos (pre ++ post) := by
  unfold collectRepos
  rw [List.filterMap_append, List.filterMap_append]
  cases node with
  | text s => simp [nodeAsElement]
  | element nm attrs =>
    have hfalse := h nm attrs rfl
    simp [nodeAsElement, List.filterMap_cons, List.filter_append, hfalse]

/-! ### Worker stage lemmas -/

theorem ensuredState_lookup_isSome (st : RepoState) (d : MergeData) (k : String)
    (h : (st.remotes.lookup k).isSome = true) :
    ((ensuredState st d).remotes.lookup k).isSome = true := by
  unfold ensuredState
  split
  · exact h
  · exact lookup_append_isSome _ _ k h

theorem merge_in_repo_open_fail (env : ExtEnv) (st : RepoState) (d : MergeData)
    (m : String) (h : env.openErr = some m) :
    merge_in_repo env st d =
      ⟨[WEvent.logMerging d.repo_name,
        WEvent.logError ("failed to open git repository at " ++ d.repo_path ++ ": " ++ m)],
        false, st, false, none⟩ := by
  unfold merge_in_repo
  rw [h]
  rfl

theorem merge_in_repo_create_fail (env : ExtEnv) (st : RepoState) (d : MergeData)
    (m : String) (ho : env.openErr = none)
    (hl : st.remotes.lookup d.remote_name = none)
    (hc : env.createErr = some m) :
    merge_in_repo env st d =
      ⟨[WEvent.logMerging d.repo_name,
        WEvent.logError ("failed to create remote " ++ d.remote_name ++ ": " ++ m)],
        false, st, false, none⟩ := by
  unfold merge_in_repo repoRemote
  rw [ho, hl, hc]
  rfl

theorem merge_in_repo_eq_fetchOnward (env : ExtEnv) (st : RepoState) (d : MergeData)
    (ho : env.openErr = none)
    (hc : env.createErr = none ∨ (st.remotes.lookup d.remote_name).isSome = true) :
    merge_in_repo env st d =
      fetchOnward env (ensuredState st d) d [WEvent.logMerging d.repo_name] := by
  unfold merge_in_repo repoRemote ensuredState
  rw [ho]
  by_cases hl : (st.remotes.lookup d.remote_name).isSome
  · simp [hl]
  · rcases hc with hc | hc
    · simp [hl, hc]
    · exact absurd hc hl

theorem fetchOnward_fetch_fail (env : ExtEnv) (st1 : RepoState) (d : MergeData)
    (ev0 : List WEvent) (m : String) (h : env.fetchErr = some m) :
    fetchOnward env st1 d ev0 =
      ⟨ev0 ++ [WEvent.logError ("failed to fetch revision " ++ d.revision ++ " from "
          ++ d.remote_url ++ " : " ++ m)], false, st1, false, none⟩ := by
  unfold fetchOnward
  rw [h]

theorem fetchOnward_ref_panic (env : ExtEnv) (st1 : RepoState) (d : MergeData)
    (ev0 : List WEvent) (hf : env.fetchErr = none) (hr : env.refFound = false) :
    fetchOnward env st1 d ev0 = ⟨ev0, true, st1, false, none⟩ := by
  unfold fetchOnward
  rw [hf, hr]
  rfl

theorem fetchOnward_annotated_panic (env : ExtEnv) (st1 : RepoState) (d : MergeData)
    (ev0 : List WEvent) (hf : env.fetchErr = none) (hr : env.refFound = true)
    (ha : env.annotatedOk = false) :
    fetchOnward env st1 d ev0 = ⟨ev0, true, st1, false, none⟩ := by
  unfold fetchOnward
  rw [hf, hr, ha]
  rfl

theorem fetchOnward_merge_fail (env : ExtEnv) (st1 : RepoState) (d : MergeData)
    (ev0 : List WEvent) (m : String) (hf : env.fetchErr = none)
    (hr : env.refFound = true) (ha : env.annotatedOk = true)
    (hm : env.mergeErr = some m) :
    fetchOnward env st1 d ev0 =
      ⟨ev0 ++ [WEvent.logError ("failed to merge revision " ++ d.revision ++ " from "
          ++ d.remote_url ++ " in " ++ d.repo_name ++ " : " ++ m)],
        false, st1, false, none⟩ := by
  unfold fetchOnward
  rw [hf, hr, ha, hm]
  rfl

theorem fetchOnward_merged_no_push (env : ExtEnv) (st1 : RepoState) (d : MergeData)
    (ev0 : List WEvent) (hf : env.fetchErr = none) (hr : env.refFound = true)
    (ha : env.annotatedOk = true) (hm : env.mergeErr = none)
    (hp : d.push = false) :
    fetchOnward env st1 d ev0 =
      ⟨ev0, false, { st1 with merging := true }, false, none⟩ := by
  unfold fetchOnward
  rw [hf, hr, ha, hm, hp]
  rfl

theorem fetchOnward_push_missing_remote (env : ExtEnv) (st1 : RepoState)
    (d : MergeData) (ev0 : List WEvent) (hf : env.fetchErr = none)
    (hr : env.refFound = true) (ha : env.annotatedOk = true)
    (hm : env.mergeErr = none) (hp : d.push = true)
    (hfl : st1.remotes.lookup FLAMINGO_REMOTE = none) :
    fetchOnward env st1 d ev0 =
      ⟨ev0, true, { st1 with merging := true }, false, none⟩ := by
  unfold fetchOnward findRemote
  rw [hf, hr, ha, hm, hp]
  simp [hfl]

theorem fetchOnward_push_fail (env : ExtEnv) (st1 : RepoState) (d : MergeData)
    (ev0 : List WEvent) (m : String) (hf : env.fetchErr = none)
    (hr : env.refFound = true) (ha : env.annotatedOk = true)
    (hm : env.mergeErr = none) (hp : d.push = true)
    (hfl : (st1.remotes.lookup FLAMINGO_REMOTE).isSome = true)
    (he : env.pushErr = some m) :
    fetchOnward env st1 d ev0 =
      ⟨ev0 ++ [WEvent.logError ("failed to push " ++ d.repo_name ++ " : " ++ m)],
        false, { st1 with merging := true }, true, none⟩ := by
  unfold fetchOnward findRemote
  rw [hf, hr, ha, hm, hp, he]
  simp only [Option.isSome_iff_exists] at hfl
  obtain ⟨u, hu⟩ := hfl
  simp [hu]

theorem fetchOnward_push_ok (env : ExtEnv) (st1 : RepoState) (d : MergeData)
    (ev0 : List WEvent) (hf : env.fetchErr = none) (hr : env.refFound = true)
    (ha : env.annotatedOk = true) (hm : env.mergeErr = none) (hp : d.push = true)
    (hfl : (st1.remotes.lookup FLAMINGO_REMOTE).isSome = true)
    (he : env.pushErr = none) :
    fetchOnward env st1 d ev0 =
      ⟨ev0 ++ [WEvent.logPushed d.repo_name], false, { st1 with merging := true },
        true, some st1.headCommit⟩ := by
  unfold fetchOnward findRemote
  rw [hf, hr, ha, hm, hp, he]
  simp only [Option.isSome_iff_exists] at hfl
  obtain ⟨u, hu⟩ := hfl
  simp [hu]

theorem merge_in_repo_conflicts_irrelevant (env : ExtEnv) (st : RepoState)
    (d : MergeData) (b b' : Bool) :
    merge_in_repo { env with mergeConflicts := b, mergeChanges := b' } st d =
      merge_in_repo env st d := by
  obtain ⟨o, c, f, rf, ak, me, mc, mch, pe⟩ := env
  rfl

/-! ### Ensure-remote lemmas -/

theorem get_or_create_exists (ce : Option String) (st : RepoState)
    (name url u : String) (h : st.remotes.lookup name = some u) :
    get_or_create_remote ce st name url = Except.ok (⟨name, u⟩, st) := by
  simp [get_or_create_remote, repoRemote, findRemote, h]

theorem get_or_create_fresh (ce : Option String) (st : RepoState)
    (name url : String) (hl : st.remotes.lookup name = none)
    (hc : ce = none) :
    get_or_create_remote ce st name url =
      Except.ok (⟨name, url⟩, { st with remotes := st.remotes ++ [(name, url)] }) := by
  simp [get_or_create_remote, repoRemote, hl, hc]

theorem get_or_create_other (ce : Option String) (st : RepoState)
    (name url m : String) (hl : st.remotes.lookup name = none)
    (hc : ce = some m) :
    get_or_create_remote ce st name url =
      Except.error ("failed to create remote " ++ name ++ ": " ++ m) := by
  simp [get_or_create_remote, repoRemote, hl, hc]

/-! ### mergeJobs decomposition lemmas -/

theorem get_repos_ok (m : ManifestM) (repos : List (String × String))
    (h : get_repos m = Except.ok repos) :
    ∃ e, m.readResult = Except.ok e ∧
      repos = hmFromList (collectRepos e.children) := by
  unfold get_repos at h
  cases hr : m.readResult with
  | error err =>
    rw [hr] at h
    simp [Except.map] at h
  | ok e =>
    rw [hr] at h
    simp only [Except.map, Except.ok.injEq] at h
    exact ⟨e, rfl, h.symm⟩

theorem mergeJobs_some_elim (source : String) (fl : ManifestM)
    (sys ven : Option ManifestM) (push : Bool) (jobs : List MergeData)
    (h : mergeJobs source fl sys ven push = some jobs) :
    ∃ frepos smap vmap, get_repos fl = Except.ok frepos ∧
      reposOf sys = Except.ok smap ∧ reposOf ven = Except.ok vmap ∧
      jobs = frepos.filterMap (buildJob source sys smap ven vmap push) := by
  unfold mergeJobs at h
  cases h2 : get_repos fl with
  | error e => rw [h2] at h; simp [Except.toOption] at h
  | ok frepos =>
    cases h3 : reposOf sys with
    | error e => rw [h2, h3] at h; simp [Except.toOption] at h
    | ok smap =>
      cases h4 : reposOf ven with
      | error e => rw [h2, h3, h4] at h; simp [Except.toOption] at h
      | ok vmap =>
        rw [h2, h3, h4] at h
        exact ⟨frepos, smap, vmap, rfl, rfl, rfl, (Option.some.inj h).symm⟩

theorem mergeJobs_eq (source : String) (fl : ManifestM)
    (sys ven : Option ManifestM) (push : Bool)
    (frepos smap vmap : List (String × String))
    (h2 : get_repos fl = Except.ok frepos)
    (h3 : reposOf sys = Except.ok smap)
    (h4 : reposOf ven = Except.ok vmap) :
    mergeJobs source fl sys ven push =
      some (frepos.filterMap (buildJob source sys smap ven vmap push)) := by
  unfold mergeJobs
  rw [h2, h3, h4]
  rfl

theorem mergeJobs_paths_nodup (source : String) (fl : ManifestM)
    (sys ven : Option ManifestM) (push : Bool) (jobs : List MergeData)
    (h : mergeJobs source fl sys ven push = some jobs) :
    (jobs.map (fun d => d.repo_path)).Nodup := by
  obtain ⟨frepos, smap, vmap, h2, _, _, hjobs⟩ :=
    mergeJobs_some_elim source fl sys ven push jobs h
  obtain ⟨e, _, hfre⟩ := get_repos_ok fl frepos h2
  subst hjobs
  subst hfre
  have hf : ∀ kv j, buildJob source sys smap ven vmap push kv = some j →
      j.repo_name = kv.1 := fun kv j hkv => (buildJob_fields hkv).1
  have hnames := filterMap_names_nodup _ hf _ (hmFromList_keys_nodup (collectRepos e.children))
  set l := (hmFromList (collectRepos e.children)).filterMap
    (buildJob source sys smap ven vmap push) with hl
  have hpaths : l.map (fun d => d.repo_path) =
      (l.map (fun d => d.repo_name)).map (fun s => (source ++ "/") ++ s) := by
    rw [List.map_map]
    apply List.map_congr_left
    intro j hj
    obtain ⟨kv, hkv, hbuild⟩ := List.mem_filterMap.mp hj
    obtain ⟨hn, hp⟩ := buildJob_fields hbuild
    show j.repo_path = (source ++ "/") ++ j.repo_name
    rw [hn, hp]
  rw [hpaths]
  apply List.Nodup.map _ hnames
  intro x y hxy
  exact str_append_left_cancel _ _ _ hxy

/-! ### Claim theorems -/

/-- C7: the ensure-remote operation is idempotent: a creation failing
specifically because the remote already exists succeeds and returns the
existing remote; if a call succeeds, repeating it with the same name and
url succeeds again with the same remote identity and the same state; and
any other creation failure is propagated as an error for that job. -/
theorem C7_ensure_remote_idempotent (ce : Option String) (st : RepoState)
    (name url u m : String) (r : RemoteT) (st' : RepoState) :
    (get_or_create_remote ce st name url = Except.ok (r, st') →
      get_or_create_remote ce st' name url = Except.ok (r, st')) ∧
    (st.remotes.lookup name = some u →
      get_or_create_remote ce st name url = Except.ok (⟨name, u⟩, st)) ∧
    (st.remotes.lookup name = none → ce = some m →
      get_or_create_remote ce st name url =
        Except.error ("failed to create remote " ++ name ++ ": " ++ m)) := by
  refine ⟨?_, fun h => get_or_create_exists ce st name url u h,
    fun hl hc => get_or_create_other ce st name url m hl hc⟩
  intro h
  cases hl : st.remotes.lookup name with
  | some u' =>
    rw [get_or_create_exists ce st name url u' hl] at h
    have h' := Except.ok.inj h
    rw [Prod.mk.injEq] at h'
    obtain ⟨hr, hs⟩ := h'
    subst hr
    subst hs
    exact get_or_create_exists ce st name url u' hl
  | none =>
    cases hc : ce with
    | some m' =>
      rw [get_or_create_other ce st name url m' hl hc] at h
      exact Except.noConfusion h
    | none =>
      rw [get_or_create_fresh ce st name url hl hc] at h
      have h' := Except.ok.inj h
      rw [Prod.mk.injEq] at h'
      obtain ⟨hr, hs⟩ := h'
      subst hr
      subst hs
      have hl2 : ({ st with remotes := st.remotes ++ [(name, url)] } : RepoState).remotes.lookup
          name = some url := by
        show (st.remotes ++ [(name, url)]).lookup name = some url
        rw [lookup_append_of_none _ _ _ hl]
        simp [List.lookup]
      exact get_or_create_exists none _ name url url hl2

/-- Witness for C7 at concrete inputs: a second identical call after a
successful creation returns the same remote and state, and a non-Exists
creation failure is an error. -/
theorem C7_witness :
    (get_or_create_remote none ⟨[("clo", "https://u")], false, 0⟩ "clo" "https://u" =
      Except.ok (⟨"clo", "https://u"⟩, ⟨[("clo", "https://u")], false, 0⟩)) ∧
    (get_or_create_remote (some "boom") ⟨[], false, 0⟩ "clo" "https://u" =
      Except.error ("failed to create remote " ++ "clo" ++ ": " ++ "boom")) :=
  ⟨(C7_ensure_remote_idempotent none ⟨[], false, 0⟩ "clo" "https://u" "https://u" "boom"
      ⟨"clo", "https://u"⟩ ⟨[("clo", "https://u")], false, 0⟩).1 (by rfl),
   (C7_ensure_remote_idempotent (some "boom") ⟨[], false, 0⟩ "clo" "https://u" "https://u"
      "boom" ⟨"clo", "https://u"⟩ ⟨[], false, 0⟩).2.2 rfl rfl⟩

/-- C9: calling ensure-remote with a name that is already registered but
a different URL succeeds and returns the existing remote with its
previously registered URL; the URL argument is ignored, no error is
raised and the repository state (hence the stored URL) is unchanged. -/
theorem C9_url_argument_ignored (ce : Option String) (st : RepoState)
    (name u0 url : String) (h : st.remotes.lookup name = some u0) :
    get_or_create_remote ce st name url = Except.ok (⟨name, u0⟩, st) :=
  get_or_create_exists ce st name url u0 h

/-- Witness for C9: the remote `origin` is registered at the old URL; a
call with a new URL returns the old URL and leaves the state alone. -/
theorem C9_witness :
    get_or_create_remote none ⟨[("origin", "https://old.example")], false, 4⟩ "origin"
        "https://new.example" =
      Except.ok (⟨"origin", "https://old.example"⟩,
        ⟨[("origin", "https://old.example")], false, 4⟩) :=
  C9_url_argument_ignored none ⟨[("origin", "https://old.example")], false, 4⟩ "origin"
    "https://old.example" "https://new.example" rfl

/-- C3 (code evaluated at the failing input): with every external call
succeeding and push requested, the worker pushes the pre-merge HEAD
(commit 7) and terminates without creating any commit — HEAD is
unchanged at 7 and the only events are the start line and the push line;
no `Merge tag ...` message is ever constructed, and `add_and_commit`
(the only commit-creating routine) is never invoked by the worker. -/
theorem C3_no_commit_created :
    merge_in_repo envAllOk stFix jobAFix =
      { events := [WEvent.logMerging "a", WEvent.logPushed "a"], panicked := false,
        state := { remotes := [("flamingo", "git@github.com:Flamingo-OS/vendor_a"),
            ("clo_system", "https://sys.example/sys_a")], merging := true, headCommit := 7 },
        pushTried := true, pushedCommit := some 7 } := rfl

/-- C2 (amended): the worker performs no conflict inspection — its
result is independent of whether the successful merge left conflicts in
the index — and after any successful merge call the repository is left
in the merging state (no cleanup), while, when the push flag is set and
the `flamingo` remote exists, the push is attempted regardless of
conflicts. -/
theorem C2_no_conflict_check (env : ExtEnv) (st : RepoState) (d : MergeData)
    (b b' : Bool) (ho : env.openErr = none)
    (hc : env.createErr = none ∨ (st.remotes.lookup d.remote_name).isSome = true)
    (hf : env.fetchErr = none) (hr : env.refFound = true)
    (ha : env.annotatedOk = true) (hm : env.mergeErr = none) :
    merge_in_repo { env with mergeConflicts := b, mergeChanges := b' } st d =
      merge_in_repo env st d ∧
    (merge_in_repo env st d).state.merging = true ∧
    (d.push = true → (st.remotes.lookup FLAMINGO_REMOTE).isSome = true →
      (merge_in_repo env st d).pushTried = true) := by
  refine ⟨merge_in_repo_conflicts_irrelevant env st d b b', ?_, ?_⟩
  · rw [merge_in_repo_eq_fetchOnward env st d ho hc]
    cases hp : d.push with
    | false => rw [fetchOnward_merged_no_push env _ d _ hf hr ha hm hp]
    | true =>
      cases hfl : ((ensuredState st d).remotes.lookup FLAMINGO_REMOTE) with
      | none => rw [fetchOnward_push_missing_remote env _ d _ hf hr ha hm hp hfl]
      | some u2 =>
        have hfl' : ((ensuredState st d).remotes.lookup FLAMINGO_REMOTE).isSome = true := by
          rw [hfl]
          rfl
        cases he : env.pushErr with
        | some m => rw [fetchOnward_push_fail env _ d _ m hf hr ha hm hp hfl' he]
        | none => rw [fetchOnward_push_ok env _ d _ hf hr ha hm hp hfl' he]
  · intro hp hfl
    rw [merge_in_repo_eq_fetchOnward env st d ho hc]
    have hfl2 := ensuredState_lookup_isSome st d FLAMINGO_REMOTE hfl
    cases he : env.pushErr with
    | some m => rw [fetchOnward_push_fail env _ d _ m hf hr ha hm hp hfl2 he]
    | none => rw [fetchOnward_push_ok env _ d _ hf hr ha hm hp hfl2 he]

/-- Witness for C2 at concrete inputs. -/
theorem C2_witness :
    merge_in_repo { envAllOk with mergeConflicts := true, mergeChanges := true }
        stFix jobAFix = merge_in_repo envAllOk stFix jobAFix ∧
    (merge_in_repo envAllOk stFix jobAFix).state.merging = true ∧
    (merge_in_repo envAllOk stFix jobAFix).pushTried = true :=
  ⟨(C2_no_conflict_check envAllOk stFix jobAFix true true rfl (Or.inl rfl)
      rfl rfl rfl rfl).1,
   (C2_no_conflict_check envAllOk stFix jobAFix true true rfl (Or.inl rfl)
      rfl rfl rfl rfl).2.1,
   (C2_no_conflict_check envAllOk stFix jobAFix true true rfl (Or.inl rfl)
      rfl rfl rfl rfl).2.2 rfl rfl⟩

/-- C2 counterexample: a job whose merge leaves unresolved conflicts in
the index (`envConflict.mergeConflicts = true`) with `push = true` is
pushed anyway — the worker emits the push-success line and no
conflict-specific outcome exists; only the "repository left in the
merging state" part of the claim holds on this code. -/
theorem C2_counterexample :
    envConflict.mergeConflicts = true ∧ jobAFix.push = true ∧
    (merge_in_repo envConflict stFix jobAFix).events =
      [WEvent.logMerging "a", WEvent.logPushed "a"] ∧
    (merge_in_repo envConflict stFix jobAFix).pushTried = true ∧
    (merge_in_repo envConflict stFix jobAFix).state.merging = true :=
  ⟨rfl, rfl, rfl, rfl, rfl⟩

/-- C1 (amended): failures at the EnsureRemote, Fetch, Merge and Push
stages are caught inside the worker, logged via `error(..)` with the
job's context, and the worker returns normally; in any batch whose jobs
have pairwise distinct repository paths, every job's result equals its
isolated worker result, so no job's failure (or panic) affects a
sibling; but a failure to resolve the fetched revision to a reference is
NOT caught: it panics the worker and nothing is logged. -/
theorem C1_failure_isolation :
    (∀ (w : World) (jobs : List MergeData),
        (jobs.map (fun d => d.repo_path)).Nodup →
        runJobs w jobs = jobs.map (fun d => (d.repo_name,
          merge_in_repo (w.envs d.repo_path) (w.states d.repo_path) d))) ∧
    (∀ (env : ExtEnv) (st : RepoState) (d : MergeData) (m : String),
        env.openErr = none → st.remotes.lookup d.remote_name = none →
        env.createErr = some m →
        (merge_in_repo env st d).panicked = false ∧
        WEvent.logError ("failed to create remote " ++ d.remote_name ++ ": " ++ m)
          ∈ (merge_in_repo env st d).events) ∧
    (∀ (env : ExtEnv) (st : RepoState) (d : MergeData) (m : String),
        env.openErr = none →
        (env.createErr = none ∨ (st.remotes.lookup d.remote_name).isSome = true) →
        env.fetchErr = some m →
        (merge_in_repo env st d).panicked = false ∧
        WEvent.logError ("failed to fetch revision " ++ d.revision ++ " from "
          ++ d.remote_url ++ " : " ++ m) ∈ (merge_in_repo env st d).events) ∧
    (∀ (env : ExtEnv) (st : RepoState) (d : MergeData) (m : String),
        env.openErr = none →
        (env.createErr = none ∨ (st.remotes.lookup d.remote_name).isSome = true) →
        env.fetchErr = none → env.refFound = true → env.annotatedOk = true →
        env.mergeErr = some m →
        (merge_in_repo env st d).panicked = false ∧
        WEvent.logError ("failed to merge revision " ++ d.revision ++ " from "
          ++ d.remote_url ++ " in " ++ d.repo_name ++ " : " ++ m)
          ∈ (merge_in_repo env st d).events) ∧
    (∀ (env : ExtEnv) (st : RepoState) (d : MergeData) (m : String),
        env.openErr = none →
        (env.createErr = none ∨ (st.remotes.lookup d.remote_name).isSome = true) →
        env.fetchErr = none → env.refFound = true → env.annotatedOk = true →
        env.mergeErr = none → d.push = true →
        (st.remotes.lookup FLAMINGO_REMOTE).isSome = true → env.pushErr = some m →
        (merge_in_repo env st d).panicked = false ∧
        (merge_in_repo env st d).pushTried = true ∧
        WEvent.logError ("failed to push " ++ d.repo_name ++ " : " ++ m)
          ∈ (merge_in_repo env st d).events) ∧
    (∀ (env : ExtEnv) (st : RepoState) (d : MergeData),
        env.openErr = none →
        (env.createErr = none ∨ (st.remotes.lookup d.remote_name).isSome = true) →
        env.fetchErr = none → env.refFound = false →
        (merge_in_repo env st d).panicked = true ∧
        (merge_in_repo env st d).events = [WEvent.logMerging d.repo_name]) := by
  refine ⟨runJobs_eq_map, ?_, ?_, ?_, ?_, ?_⟩
  · intro env st d m ho hl hc
    rw [merge_in_repo_create_fail env st d m ho hl hc]
    exact ⟨rfl, by simp⟩
  · intro env st d m ho hc hf
    rw [merge_in_repo_eq_fetchOnward env st d ho hc,
      fetchOnward_fetch_fail env _ d _ m hf]
    exact ⟨rfl, by simp⟩
  · intro env st d m ho hc hf hr ha hm
    rw [merge_in_repo_eq_fetchOnward env st d ho hc,
      fetchOnward_merge_fail env _ d _ m hf hr ha hm]
    exact ⟨rfl, by simp⟩
  · intro env st d m ho hc hf hr ha hm hp hfl he
    have hfl2 := ensuredState_lookup_isSome st d FLAMINGO_REMOTE hfl
    rw [merge_in_repo_eq_fetchOnward env st d ho hc,
      fetchOnward_push_fail env _ d _ m hf hr ha hm hp hfl2 he]
    exact ⟨rfl, rfl, by simp⟩
  · intro env st d ho hc hf hr
    rw [merge_in_repo_eq_fetchOnward env st d ho hc,
      fetchOnward_ref_panic env _ d _ hf hr]
    exact ⟨rfl, rfl⟩

/-- Witness for C1 at concrete inputs: each caught failure stage logs
and returns; the resolve-reference failure panics. -/
theorem C1_witness :
    runJobs worldFix [jobAFix] = [(jobAFix.repo_name,
      merge_in_repo (worldFix.envs jobAFix.repo_path)
        (worldFix.states jobAFix.repo_path) jobAFix)] ∧
    ((merge_in_repo envCreateFail stFix jobAFix).panicked = false ∧
      WEvent.logError ("failed to create remote " ++ jobAFix.remote_name ++ ": " ++ "invalid")
        ∈ (merge_in_repo envCreateFail stFix jobAFix).events) ∧
    ((merge_in_repo envFetchFail stFix jobAFix).panicked = false ∧
      WEvent.logError ("failed to fetch revision " ++ jobAFix.revision ++ " from "
        ++ jobAFix.remote_url ++ " : " ++ "timeout")
        ∈ (merge_in_repo envFetchFail stFix jobAFix).events) ∧
    ((merge_in_repo envMergeFail stFix jobAFix).panicked = false ∧
      WEvent.logError ("failed to merge revision " ++ jobAFix.revision ++ " from "
        ++ jobAFix.remote_url ++ " in " ++ jobAFix.repo_name ++ " : " ++ "dirty")
        ∈ (merge_in_repo envMergeFail stFix jobAFix).events) ∧
    ((merge_in_repo envPushFail stFix jobAFix).panicked = false ∧
      (merge_in_repo envPushFail stFix jobAFix).pushTried = true ∧
      WEvent.logError ("failed to push " ++ jobAFix.repo_name ++ " : " ++ "denied")
        ∈ (merge_in_repo envPushFail stFix jobAFix).events) ∧
    ((merge_in_repo envRefMissing stFix jobAFix).panicked = true ∧
      (merge_in_repo envRefMissing stFix jobAFix).events =
        [WEvent.logMerging jobAFix.repo_name]) :=
  ⟨C1_failure_isolation.1 worldFix [jobAFix] (by simp),
   C1_failure_isolation.2.1 envCreateFail stFix jobAFix "invalid" rfl rfl rfl,
   C1_failure_isolation.2.2.1 envFetchFail stFix jobAFix "timeout" rfl (Or.inl rfl) rfl,
   C1_failure_isolation.2.2.2.1 envMergeFail stFix jobAFix "dirty" rfl (Or.inl rfl)
     rfl rfl rfl rfl,
   C1_failure_isolation.2.2.2.2.1 envPushFail stFix jobAFix "denied" rfl (Or.inl rfl)
     rfl rfl rfl rfl rfl rfl rfl,
   C1_failure_isolation.2.2.2.2.2 envRefMissing stFix jobAFix rfl (Or.inl rfl) rfl rfl⟩

/-- C1 counterexample: the remote is ensured and the fetch succeeds,
then the fetched revision fails to resolve to a reference — the worker
panics (`find_reference(..).unwrap()`), nothing is logged and no outcome
is produced, contradicting "every failure from EnsureRemote through
PushIfRequested is caught, converted and logged". -/
theorem C1_counterexample :
    envRefMissing.fetchErr = none ∧ envRefMissing.refFound = false ∧
    (merge_in_repo envRefMissing stFix jobAFix).panicked = true ∧
    (merge_in_repo envRefMissing stFix jobAFix).events = [WEvent.logMerging "a"] :=
  ⟨rfl, rfl, rfl, rfl⟩

/-- C4: for a baseline path present in both upstream mappings, the one
job built for it uses the system RemoteSpec (remote name, URL composed
from the system mapping, system revision); the vendor data does not
appear in it. -/
theorem C4_system_precedence (source : String) (fl sm vm : ManifestM)
    (push : Bool) (jobs : List MergeData)
    (frepos smap vmap : List (String × String)) (p n ns nv : String)
    (h : mergeJobs source fl (some sm) (some vm) push = some jobs)
    (h2 : get_repos fl = Except.ok frepos)
    (h3 : get_repos sm = Except.ok smap)
    (h4 : get_repos vm = Except.ok vmap)
    (hmem : (p, n) ∈ frepos)
    (hs : hmGet smap p = some ns)
    (_hv : hmGet vmap p = some nv) :
    jobs.filter (fun j => j.repo_name == p) =
      [{ remote_name := sm.remote_name, remote_url := sm.remote_url ++ "/" ++ ns,
         repo_path := source ++ "/" ++ p, repo_name := p,
         revision := sm.revision, push := push }] := by
  have hj := mergeJobs_eq source fl (some sm) (some vm) push frepos smap vmap h2
    (show reposOf (some sm) = Except.ok smap from h3)
    (show reposOf (some vm) = Except.ok vmap from h4)
  rw [hj] at h
  obtain rfl := Option.some.inj h
  obtain ⟨e, _, hfre⟩ := get_repos_ok fl frepos h2
  have hnd : (frepos.map Prod.fst).Nodup := by
    rw [hfre]
    exact hmFromList_keys_nodup _
  have hf : ∀ kv j, buildJob source (some sm) smap (some vm) vmap push kv = some j →
      j.repo_name = kv.1 := fun kv j hkv => (buildJob_fields hkv).1
  rw [filterMap_filter_of_mem _ hf frepos p n hnd hmem]
  simp [buildJob, hmContains, hs]

/-- Witness for C4: path `a` is tracked by both upstreams; the job built
for it is the system one. -/
theorem C4_witness :
    [jobAFix, jobBFix].filter (fun j => j.repo_name == "a") = [jobAFix] :=
  C4_system_precedence "src" flamingoFix systemFix vendorFix true [jobAFix, jobBFix]
    [("a", "flamingo_a"), ("b", "flamingo_b"), ("c", "flamingo_c")] [("a", "sys_a")]
    [("a", "ven_a"), ("b", "ven_b")] "a" "flamingo_a" "sys_a" "ven_a"
    rfl rfl rfl rfl (by simp) rfl rfl

/-- C5: a baseline path present in exactly one upstream mapping yields
exactly one job using that upstream's RemoteSpec, with the clone URL
composed as `remoteUrl ++ "/" ++ upstreamRepoName` and the repository
path as `source ++ "/" ++ path`; a baseline path present in neither
mapping yields no job. -/
theorem C5_exactly_one_upstream (source : String) (fl : ManifestM)
    (sys ven : Option ManifestM) (push : Bool) (jobs : List MergeData)
    (frepos smap vmap : List (String × String)) (p n ns nv : String)
    (sm vm : ManifestM)
    (h : mergeJobs source fl sys ven push = some jobs)
    (h2 : get_repos fl = Except.ok frepos)
    (h3 : reposOf sys = Except.ok smap)
    (h4 : reposOf ven = Except.ok vmap)
    (hmem : (p, n) ∈ frepos) :
    (sys = some sm → hmGet smap p = some ns → hmContains vmap p = false →
      jobs.filter (fun j => j.repo_name == p) =
        [{ remote_name := sm.remote_name, remote_url := sm.remote_url ++ "/" ++ ns,
           repo_path := source ++ "/" ++ p, repo_name := p,
           revision := sm.revision, push := push }]) ∧
    (ven = some vm → hmContains smap p = false → hmGet vmap p = some nv →
      jobs.filter (fun j => j.repo_name == p) =
        [{ remote_name := vm.remote_name, remote_url := vm.remote_url ++ "/" ++ nv,
           repo_path := source ++ "/" ++ p, repo_name := p,
           revision := vm.revision, push := push }]) ∧
    (hmContains smap p = false → hmContains vmap p = false →
      jobs.filter (fun j => j.repo_name == p) = []) := by
  have hj := mergeJobs_eq source fl sys ven push frepos smap vmap h2 h3 h4
  rw [hj] at h
  obtain rfl := Option.some.inj h
  obtain ⟨e, _, hfre⟩ := get_repos_ok fl frepos h2
  have hnd : (frepos.map Prod.fst).Nodup := by
    rw [hfre]
    exact hmFromList_keys_nodup _
  have hf : ∀ kv j, buildJob source sys smap ven vmap push kv = some j →
      j.repo_name = kv.1 := fun kv j hkv => (buildJob_fields hkv).1
  have hmaster := filterMap_filter_of_mem _ hf frepos p n hnd hmem
  refine ⟨?_, ?_, ?_⟩
  · rintro rfl hs hvno
    rw [hmaster]
    simp [buildJob, hmContains, hs]
  · rintro rfl hsno hv
    have hv' : hmContains vmap p = true := by simp [hmContains, hv]
    rw [hmaster]
    simp [buildJob, hsno, hv', Option.get!]
    simp [hmGet] at hv ⊢
    simp [hv]
  · intro hsno hvno
    rw [hmaster]
    simp [buildJob, hsno, hvno]

/-- Witness for C5: with the system upstream tracking only `a` and the
vendor upstream tracking only `b`, path `a` yields the system job, path
`b` the vendor job, and path `c` no job. -/
theorem C5_witness :
    ([jobAFix, jobBFix].filter (fun j => j.repo_name == "a") = [jobAFix]) ∧
    ([jobAFix, jobBFix].filter (fun j => j.repo_name == "b") = [jobBFix]) ∧
    ([jobAFix, jobBFix].filter (fun j => j.repo_name == "c") = []) :=
  ⟨(C5_exactly_one_upstream "src" flamingoFix (some systemFix) (some vendorBFix) true
      [jobAFix, jobBFix]
      [("a", "flamingo_a"), ("b", "flamingo_b"), ("c", "flamingo_c")] [("a", "sys_a")]
      [("b", "ven_b")] "a" "flamingo_a" "sys_a" "zz" systemFix vendorBFix
      rfl rfl rfl rfl (by simp)).1 rfl rfl rfl,
   (C5_exactly_one_upstream "src" flamingoFix (some systemFix) (some vendorBFix) true
      [jobAFix, jobBFix]
      [("a", "flamingo_a"), ("b", "flamingo_b"), ("c", "flamingo_c")] [("a", "sys_a")]
      [("b", "ven_b")] "b" "flamingo_b" "zz" "ven_b" systemFix vendorBFix
      rfl rfl rfl rfl (by simp)).2.1 rfl rfl rfl,
   (C5_exactly_one_upstream "src" flamingoFix (some systemFix) (some vendorBFix) true
      [jobAFix, jobBFix]
      [("a", "flamingo_a"), ("b", "flamingo_b"), ("c", "flamingo_c")] [("a", "sys_a")]
      [("b", "ven_b")] "c" "flamingo_c" "zz" "zz" systemFix vendorBFix
      rfl rfl rfl rfl (by simp)).2.2 rfl rfl⟩

/-- C6 (amended): a present-but-malformed upstream manifest does not
merely drop that upstream's jobs — `get_repos(..).unwrap()` panics,
aborting the whole run before any job is built, whichever side (system
or vendor) the malformed manifest is on. -/
theorem C6_malformed_upstream_aborts (source : String) (fl : ManifestM)
    (other : Option ManifestM) (push : Bool) (m : ManifestM) (e : String)
    (h : m.readResult = Except.error e) :
    mergeJobs source fl (some m) other push = none ∧
    mergeJobs source fl other (some m) push = none := by
  have hg : get_repos m = Except.error e := by
    unfold get_repos
    rw [h]
    rfl
  constructor
  · unfold mergeJobs
    cases hf : (get_repos fl).toOption with
    | none => simp [hf]
    | some frepos => simp [hf, reposOf, hg, Except.toOption]
  · unfold mergeJobs
    cases hf : (get_repos fl).toOption with
    | none => simp [hf]
    | some frepos =>
      cases ho : (reposOf other).toOption with
      | none => simp [hf, ho]
      | some smap => simp [hf, ho, reposOf, hg, Except.toOption]

/-- Witness for C6: a malformed manifest in the system slot or in the
vendor slot aborts the run. -/
theorem C6_witness :
    mergeJobs "src" flamingoFix (some malformedFix) (some vendorFix) true = none ∧
    mergeJobs "src" flamingoFix (some vendorFix) (some malformedFix) true = none :=
  C6_malformed_upstream_aborts "src" flamingoFix (some vendorFix) true malformedFix
    "Failed to parse system.xml" rfl

/-- C6 counterexample: the system manifest is malformed while the vendor
manifest parses and tracks baseline paths `a` and `b` — yet the run
produces no jobs at all (panic), instead of proceeding with the
vendor-derived jobs as the claim states. -/
theorem C6_counterexample :
    mergeJobs "src" flamingoFix (some malformedFix) (some vendorFix) true = none ∧
    get_repos vendorFix = Except.ok [("a", "ven_a"), ("b", "ven_b")] ∧
    get_repos flamingoFix =
      Except.ok [("a", "flamingo_a"), ("b", "flamingo_b"), ("c", "flamingo_c")] :=
  ⟨rfl, rfl, rfl⟩

/-- C8: the multiset of per-job worker results of a batch produced by
`mergeJobs` is the same for every execution order of the batch; a worker
pool of any size (1, 2, or N) executes the jobs in some interleaving,
i.e. some permutation of the dispatch order, so all pool sizes yield the
same multiset of outcomes. -/
theorem C8_schedule_invariance (w : World) (source : String) (fl : ManifestM)
    (sys ven : Option ManifestM) (push : Bool) (jobs l2 : List MergeData)
    (h : mergeJobs source fl sys ven push = some jobs)
    (hp : jobs.Perm l2) :
    (runJobs w jobs : Multiset (String × WorkerResult)) = ↑(runJobs w l2) := by
  have hnd := mergeJobs_paths_nodup source fl sys ven push jobs h
  have hpm := hp.map (fun d => d.repo_path)
  have hnd2 : (l2.map (fun d => d.repo_path)).Nodup := hpm.nodup hnd
  rw [runJobs_eq_map w jobs hnd, runJobs_eq_map w l2 hnd2]
  exact Multiset.coe_eq_coe.mpr (hp.map _)

/-- Witness for C8: the two execution orders of the two-job batch give
the same multiset of results. -/
theorem C8_witness :
    (runJobs worldFix [jobAFix, jobBFix] : Multiset (String × WorkerResult)) =
      ↑(runJobs worldFix [jobBFix, jobAFix]) :=
  C8_schedule_invariance worldFix "src" flamingoFix (some systemFix) (some vendorFix)
    true [jobAFix, jobBFix] [jobBFix, jobAFix] rfl (List.Perm.swap jobBFix jobAFix [])

/-- C10 (amended): the mapping extracted by `get_repos` contains a key
`p` exactly when some child element — of any tag name, `project` or not
— carries both a `path` and a `name` attribute with `path = p`; a child
that is not an element or lacks either attribute is skipped and
contributes nothing; and every job's repository name originates from
such a child element of the baseline manifest. -/
theorem C10_mapping_characterization :
    (∀ (e : Element) (p : String),
        hmContains (hmFromList (collectRepos e.children)) p = true ↔
          ∃ nm attrs, XMLNode.element nm attrs ∈ e.children ∧
            attrsContains attrs "path" = true ∧ attrsContains attrs "name" = true ∧
            attrsGet attrs "path" = p) ∧
    (∀ (pre post : List XMLNode) (node : XMLNode),
        (∀ nm attrs, node = XMLNode.element nm attrs →
          (attrsContains attrs "path" && attrsContains attrs "name") = false) →
        collectRepos (pre ++ node :: post) = collectRepos (pre ++ post)) ∧
    (∀ (source : String) (fl : ManifestM) (sys ven : Option ManifestM) (push : Bool)
        (jobs : List MergeData) (j : MergeData) (e : Element),
        mergeJobs source fl sys ven push = some jobs → j ∈ jobs →
        fl.readResult = Except.ok e →
        ∃ nm attrs, XMLNode.element nm attrs ∈ e.children ∧
          attrsContains attrs "path" = true ∧ attrsContains attrs "name" = true ∧
          attrsGet attrs "path" = j.repo_name) := by
  refine ⟨?_, collectRepos_skip, ?_⟩
  · intro e p
    rw [hmContains_iff]
    constructor
    · intro h
      obtain ⟨pair, hpair, hfst⟩ := List.mem_map.mp h
      obtain ⟨pp, nn⟩ := pair
      obtain rfl : pp = p := hfst
      obtain ⟨nm, attrs, hel, hp, hn, hgp, _⟩ :=
        (mem_collectRepos e.children pp nn).mp hpair
      exact ⟨nm, attrs, hel, hp, hn, hgp⟩
    · rintro ⟨nm, attrs, hel, hp, hn, hgp⟩
      apply List.mem_map.mpr
      refine ⟨(p, attrsGet attrs "name"), ?_, rfl⟩
      exact (mem_collectRepos e.children p (attrsGet attrs "name")).mpr
        ⟨nm, attrs, hel, hp, hn, hgp, rfl⟩
  · intro source fl sys ven push jobs j e h hj hre
    obtain ⟨frepos, smap, vmap, h2, _, _, hjobs⟩ :=
      mergeJobs_some_elim source fl sys ven push jobs h
    subst hjobs
    obtain ⟨e', he', hfre⟩ := get_repos_ok fl frepos h2
    rw [hre] at he'
    obtain rfl := Except.ok.inj he'
    subst hfre
    obtain ⟨kv, hkv, hbuild⟩ := List.mem_filterMap.mp hj
    have hkv2 := hmFromList_mem _ kv hkv
    obtain ⟨pp, nn⟩ := kv
    obtain ⟨nm, attrs, hel, hp, hn, hgp, _⟩ :=
      (mem_collectRepos e.children pp nn).mp hkv2
    have hname := (buildJob_fields hbuild).1
    refine ⟨nm, attrs, hel, hp, hn, ?_⟩
    rw [hname]
    exact hgp

/-- Witness for C10 at concrete inputs: a qualifying element is in the
mapping; a child missing the `name` attribute contributes nothing; and
the job for path `a` traces back to a child of the baseline manifest. -/
theorem C10_witness :
    hmContains (hmFromList (collectRepos [
        XMLNode.element "project" [("path", "a"), ("name", "x")],
        XMLNode.text "t"])) "a" = true ∧
    collectRepos ([XMLNode.element "project" [("path", "a"), ("name", "x")]] ++
        XMLNode.element "incomplete" [("path", "b")] :: []) =
      collectRepos ([XMLNode.element "project" [("path", "a"), ("name", "x")]] ++ []) ∧
    (∃ nm attrs, XMLNode.element nm attrs ∈ ([
        XMLNode.element "project" [("path", "a"), ("name", "flamingo_a")],
        XMLNode.element "project" [("path", "b"), ("name", "flamingo_b")],
        XMLNode.element "project" [("path", "c"), ("name", "flamingo_c")]] :
          List XMLNode) ∧
      attrsContains attrs "path" = true ∧ attrsContains attrs "name" = true ∧
      attrsGet attrs "path" = jobAFix.repo_name) :=
  ⟨(C10_mapping_characterization.1 ⟨[
      XMLNode.element "project" [("path", "a"), ("name", "x")],
      XMLNode.text "t"]⟩ "a").mpr
      ⟨"project", [("path", "a"), ("name", "x")], by simp, rfl, rfl, rfl⟩,
   C10_mapping_characterization.2.1
      [XMLNode.element "project" [("path", "a"), ("name", "x")]] []
      (XMLNode.element "incomplete" [("path", "b")])
      (by intro nm attrs hEq; cases hEq; rfl),
   C10_mapping_characterization.2.2 "src" flamingoFix (some systemFix)
      (some vendorFix) true [jobAFix, jobBFix] jobAFix
      ⟨[XMLNode.element "project" [("path", "a"), ("name", "flamingo_a")],
        XMLNode.element "project" [("path", "b"), ("name", "flamingo_b")],
        XMLNode.element "project" [("path", "c"), ("name", "flamingo_c")]]⟩
      rfl (by simp) rfl⟩

/-- C10 counterexample: a manifest whose only child element is named
`remote` (not `project`) but carries both attributes still contributes a
mapping entry — the extraction never looks at the element's tag name, so
the mapping is not "exactly the child project elements". -/
theorem C10_counterexample :
    get_repos remoteChildFix = Except.ok [("p1", "n1")] ∧
    remoteChildFix.readResult =
      Except.ok ⟨[XMLNode.element "remote" [("path", "p1"), ("name", "n1")]]⟩ :=
  ⟨rfl, rfl⟩

end ManifestMerger
